import Mathlib

/-!
Verification of the `listenerutil` HTTP utility layer.

The repository wraps Go `http.HandlerFunc` values with three concerns:
gzip negotiation (`GZipHandler`), a JSON response envelope
(`WrapResponse` / `ExtendHandler` over a `handlerManager`), and a hook
registry with configurable envelope field names.  The definitions below
are a shallow embedding of that code: requests carry a method, a header
map and a one-shot body stream; response writers accumulate headers,
one status write and body bytes; the external libraries
(`compress/gzip`, `encoding/json`, `net/http.StatusText`) are modelled
by explicit executable functions or structure parameters.
-/

namespace ListenerUtil

/-! ### Headers (Go `http.Header` restricted to Get/Set of single values) -/

abbrev Headers := List (String × String)

def headerGet (hs : Headers) (k : String) : String :=
  match hs with
  | [] => ""
  | (k1, v1) :: rest => if k1 = k then v1 else headerGet rest k

def headerSet (hs : Headers) (k v : String) : Headers :=
  match hs with
  | [] => [(k, v)]
  | (k1, v1) :: rest => if k1 = k then (k, v) :: rest else (k1, v1) :: headerSet rest k v

/-- Model of Go `strings.Contains` (substring test). -/
def strContains (s sub : String) : Bool :=
  (List.range (s.length + 1)).any fun i => sub.data.isPrefixOf (s.data.drop i)

/-- Bytes of an ASCII string, as written by `Write([]byte(s))`. -/
def strBytes (s : String) : List Nat :=
  s.data.map Char.toNat

/-! ### JSON values and `encoding/json.Marshal` model

`json.Marshal` on a `map[string]interface{}` emits the entries sorted
by key (bytewise), compactly.  We model JSON-marshalable Go values by
`Json` and marshalling by `serJson` after a key sort. -/

inductive Json where
  | null
  | bool (b : Bool)
  | num (n : Int)
  | str (s : String)
  | arr (xs : List Json)
  | obj (fields : List (String × Json))

def serStrChar (c : Char) : String :=
  if c = '"' then "\\\"" else if c = '\\' then "\\\\" else String.singleton c

def serStr (s : String) : String :=
  "\"" ++ String.join (s.data.map serStrChar) ++ "\""

mutual

def serJson : Json → String
  | Json.null => "null"
  | Json.bool true => "true"
  | Json.bool false => "false"
  | Json.num n => toString n
  | Json.str s => serStr s
  | Json.arr xs => "[" ++ serList xs ++ "]"
  | Json.obj fs => "\x7b" ++ serFields fs ++ "\x7d"

def serList : List Json → String
  | [] => ""
  | [x] => serJson x
  | x :: y :: xs => serJson x ++ "," ++ serList (y :: xs)

def serFields : List (String × Json) → String
  | [] => ""
  | [(k, v)] => serStr k ++ ":" ++ serJson v
  | (k, v) :: f :: fs => serStr k ++ ":" ++ serJson v ++ "," ++ serFields (f :: fs)

end

/-- Insertion of one entry into a key-sorted field list. -/
def insertField (p : String × Json) : List (String × Json) → List (String × Json)
  | [] => [p]
  | q :: qs => if p.1 < q.1 then p :: q :: qs else q :: insertField p qs

/-- Sort an object's fields by key, as `json.Marshal` does for Go maps. -/
def sortFields : List (String × Json) → List (String × Json)
  | [] => []
  | p :: ps => insertField p (sortFields ps)

/-- Go map assignment `m[k] = v` on an association list. -/
def mapInsert : List (String × Json) → String → Json → List (String × Json)
  | [], k, v => [(k, v)]
  | (k1, v1) :: rest, k, v =>
      if k1 = k then (k, v) :: rest else (k1, v1) :: mapInsert rest k v

/-- `json.Marshal` of a Go `map[string]interface{}`: entries sorted by
key, serialized compactly, returned as bytes. -/
def marshalBytes (fields : List (String × Json)) : List Nat :=
  strBytes (serJson (Json.obj (sortFields fields)))

/-- Model of Go `net/http.StatusText` (common entries; unknown codes
give the empty string, as in Go). -/
def statusText (code : Nat) : String :=
  if code = 200 then "OK"
  else if code = 201 then "Created"
  else if code = 204 then "No Content"
  else if code = 301 then "Moved Permanently"
  else if code = 302 then "Found"
  else if code = 400 then "Bad Request"
  else if code = 401 then "Unauthorized"
  else if code = 403 then "Forbidden"
  else if code = 404 then "Not Found"
  else if code = 500 then "Internal Server Error"
  else if code = 503 then "Service Unavailable"
  else ""

/-! ### Requests and one-shot body streams

A Go `r.Body` is a stream read at most once in this code.  We model the
body by what `ioutil.ReadAll` would currently return on it: either the
remaining bytes or a read error. -/

inductive ReadResult where
  | ok (bs : List Nat)
  | readErr (e : String)
deriving DecidableEq

structure Request where
  method : String
  headers : Headers
  body : ReadResult
deriving DecidableEq

/-- Model of `ioutil.ReadAll(r.Body)`: returns the read outcome and the
state the stream is left in (drained after a successful full read). -/
def ioReadAll : ReadResult → Except String (List Nat) × ReadResult
  | ReadResult.ok bs => (Except.ok bs, ReadResult.ok [])
  | ReadResult.readErr e => (Except.error e, ReadResult.readErr e)

/-! ### The `compress/gzip` library, as a parameter

`gzip.NewReader` validates the stream header; `ioutil.ReadAll` on the
reader then decompresses the rest and may fail independently.
`gzip.NewWriter`/`Close` produce one complete compressed stream for the
concatenation of all writes. -/

structure GzipLib where
  newReaderOk : List Nat → Bool
  readAll : List Nat → Option (List Nat)
  compress : List Nat → List Nat
  detectContentType : List Nat → String

/-- A gzip model is lawful when compressed data passes the header check
and decompresses back to the original bytes (round trip). -/
def GzipLib.Lawful (gm : GzipLib) : Prop :=
  ∀ b, gm.newReaderOk (gm.compress b) = true ∧ gm.readAll (gm.compress b) = some b

/-- A concrete executable gzip stand-in: a two-byte magic header
(`0x1f 0x8b`, as in real gzip) and a trailing `0` end marker, so that
header validation and stream reading can fail independently — exactly
the failure split `compress/gzip` exhibits (valid header, corrupt
tail). -/
def toyGzip : GzipLib where
  newReaderOk d := d.take 2 = [31, 139]
  readAll d :=
    if d.take 2 = [31, 139] ∧ d.getLast? = some 0 then some ((d.drop 2).dropLast) else none
  compress b := [31, 139] ++ b ++ [0]
  detectContentType _ := "text/plain"

/-! ### `GZipHandler` (src/gzip.go lines 27-62) -/

/-- Inbound half of `GZipHandler`: if `Content-Encoding` contains
"gzip", read the whole body; on a successful read, try the gzip reader:
if its construction fails, fall back to the original bytes; if it
succeeds, replace the body with the decompressed bytes when reading
them succeeds, and otherwise only log — the body stays whatever the
initial read left behind. -/
def gzipInbound (gm : GzipLib) (r : Request) : Request :=
  if strContains (headerGet r.headers "Content-Encoding") "gzip" then
    match ioReadAll r.body with
    | (Except.ok data, drained) =>
      if gm.newReaderOk data then
        match gm.readAll data with
        | some d => { r with body := ReadResult.ok d }
        | none => { r with body := drained }
      else
        { r with body := ReadResult.ok data }
    | (Except.error _, leftover) => { r with body := leftover }
  else r

/-- A response writer: headers, at most one effective `WriteHeader`
(Go ignores a second call), accumulated body bytes, and whether the
writer is the gzip wrapper (`gzipResponseWriter`). -/
structure Writer where
  headers : Headers
  status : Option Nat
  body : List Nat
  isGzip : Bool
deriving DecidableEq

def writeHeader (w : Writer) (code : Nat) : Writer :=
  match w.status with
  | none => { w with status := some code }
  | some _ => w

/-- The inner handler's observable effect on the writer: the sequence
of `Write` calls it makes (its byte chunks). -/
def runPlainWrites (w : Writer) (chunks : List (List Nat)) : Writer :=
  chunks.foldl (fun w1 c => { w1 with body := w1.body ++ c }) w

/-- One `gzipResponseWriter.Write` call: sniff `Content-Type` when
unset (`http.DetectContentType`), then hand the chunk to the
compressor (tracked as accumulated plaintext). -/
def gzipWriteStep (gm : GzipLib) (st : Writer × List Nat) (c : List Nat) : Writer × List Nat :=
  let w1 := st.1
  let w2 :=
    if headerGet w1.headers "Content-Type" = "" then
      { w1 with headers := headerSet w1.headers "Content-Type" (gm.detectContentType c) }
    else w1
  (w2, st.2 ++ c)

/-- Writes through `gzipResponseWriter` and the gzip writer. -/
def runGzipWrites (gm : GzipLib) (w : Writer) (chunks : List (List Nat)) : Writer × List Nat :=
  chunks.foldl (gzipWriteStep gm) (w, [])

/-- `GZipHandler`: inbound decompression, then gzip negotiation on
`Accept-Encoding`; returns the request the inner handler observed and
the final writer (after `gz.Close()` flushed the complete stream). -/
def GZipHandler (gm : GzipLib) (handler : Request → List (List Nat)) (r : Request)
    (w : Writer) : Request × Writer :=
  let r2 := gzipInbound gm r
  if strContains (headerGet r2.headers "Accept-Encoding") "gzip" = false then
    (r2, runPlainWrites w (handler r2))
  else
    let w1 := { w with headers := headerSet w.headers "Content-Encoding" "gzip", isGzip := true }
    let out := runGzipWrites gm w1 (handler r2)
    (r2, { out.1 with body := out.1.body ++ gm.compress out.2 })

/-! ### `ParseBodyParam` (src/param.go lines 11-24)

`json.Unmarshal(body, param)` is a parameter: it reports whether the
bytes are valid JSON for the caller's target shape. -/

def ParseBodyParam (unmarshal : List Nat → Option String) (r : Request) :
    Option String × Request :=
  match ioReadAll r.body with
  | (Except.error e, leftover) => (some e, { r with body := leftover })
  | (Except.ok body, _) =>
    let r2 := { r with body := ReadResult.ok body }
    match unmarshal body with
    | some e => (some e, r2)
    | none => (none, r2)

/-! ### `handlerManager` (src/gzip.go lines 226-320)

Hook functions are opaque to this layer; we track them by registration
identifier, and record invocations in an event trace. -/

structure Manager where
  beginHooks : List Nat
  endHooks : List Nat
  dataFieldName : String
  codeFieldName : String
  msgFieldName : String
  allowCrossOrigin : Bool
deriving DecidableEq

def defaultManager : Manager where
  beginHooks := []
  endHooks := []
  dataFieldName := "data"
  codeFieldName := "errno"
  msgFieldName := "errmsg"
  allowCrossOrigin := true

def addBeginHook (m : Manager) (h : Nat) : Manager :=
  { m with beginHooks := m.beginHooks ++ [h] }

/-- `addEndHook` wraps the legacy hook shape and appends to the same
list as `addEndHandleFunc`. -/
def addEndHook (m : Manager) (h : Nat) : Manager :=
  { m with endHooks := m.endHooks ++ [h] }

def addEndHandleFunc (m : Manager) (h : Nat) : Manager :=
  { m with endHooks := m.endHooks ++ [h] }

def setDataFieldName (m : Manager) (name : String) : Option String × Manager :=
  if name.length = 0 then (some ("invalid field name: " ++ name), m)
  else if name = m.codeFieldName ∨ name = m.msgFieldName then
    (some ("duplicate filed name: " ++ name), m)
  else (none, { m with dataFieldName := name })

def setCodeFieldName (m : Manager) (name : String) : Option String × Manager :=
  if name.length = 0 then (some ("invalid field name: " ++ name), m)
  else if name = m.dataFieldName ∨ name = m.msgFieldName then
    (some ("duplicate filed name: " ++ name), m)
  else (none, { m with codeFieldName := name })

def setMsgFieldName (m : Manager) (name : String) : Option String × Manager :=
  if name.length = 0 then (some ("invalid field name: " ++ name), m)
  else if name = m.dataFieldName ∨ name = m.codeFieldName then
    (some ("duplicate filed name: " ++ name), m)
  else (none, { m with msgFieldName := name })

inductive SetterCall where
  | setData (s : String)
  | setCode (s : String)
  | setMsg (s : String)
deriving DecidableEq

def applyCall (m : Manager) : SetterCall → Option String × Manager
  | SetterCall.setData s => setDataFieldName m s
  | SetterCall.setCode s => setCodeFieldName m s
  | SetterCall.setMsg s => setMsgFieldName m s

def applyCalls (m : Manager) (cs : List SetterCall) : Manager :=
  cs.foldl (fun m1 c => (applyCall m1 c).2) m

/-- The three envelope field names are non-empty and pairwise
distinct. -/
def fieldNamesOK (m : Manager) : Prop :=
  m.dataFieldName.length ≠ 0 ∧ m.codeFieldName.length ≠ 0 ∧ m.msgFieldName.length ≠ 0 ∧
  m.dataFieldName ≠ m.codeFieldName ∧ m.dataFieldName ≠ m.msgFieldName ∧
  m.codeFieldName ≠ m.msgFieldName

instance (m : Manager) : Decidable (fieldNamesOK m) := by
  unfold fieldNamesOK; infer_instance

/-! ### CORS headers (`doAccessOrigin`, src/gzip.go lines 370-385) -/

def doAccessOrigin (r : Request) (hs : Headers) : Headers :=
  let origin := headerGet r.headers "Origin"
  let origin := if (origin.trim).length ≤ 0 then "*" else origin
  let hs1 := headerSet hs "Access-Control-Allow-Origin" origin
  let hs2 := headerSet hs1 "Access-Control-Allow-Credentials" "true"
  if r.method = "OPTIONS" then
    headerSet
      (headerSet hs2 "Access-Control-Allow-Methods"
        (headerGet r.headers "Access-Control-Request-Method"))
      "Access-Control-Allow-Headers" (headerGet r.headers "Access-Control-Request-Headers")
  else hs2

/-! ### `WrapResponse` (src/gzip.go lines 388-421) -/

/-- A business handler's `interface{}` result: either a raw byte
sequence (the `response.([]byte)` type assertion succeeds) or a
JSON-marshalable value. -/
inductive Payload where
  | raw (bs : List Nat)
  | json (v : Json)

/-- The tail of `WrapResponse`: set `Content-Type: application/json`,
set `Content-Length` unless the writer is the gzip wrapper, write the
status, write the body bytes. -/
def writeOut (w : Writer) (data : List Nat) (status : Nat) : Writer :=
  let w1 := { w with headers := headerSet w.headers "Content-Type" "application/json" }
  let w2 :=
    if w1.isGzip = false then
      { w1 with headers := headerSet w1.headers "Content-Length" (toString data.length) }
    else w1
  let w3 := writeHeader w2 status
  { w3 with body := w3.body ++ data }

/-- `WrapResponse`: raw bytes pass through verbatim; otherwise build
the envelope map (error shape when `err ≠ nil` or `status ≠ 200`,
normalizing 200 to 400 and synthesizing a message from
`http.StatusText`; success shape otherwise) and marshal it.  The
marshal-failure 500 path of the source is unreachable here because
`Json` values always marshal. -/
def WrapResponse (m : Manager) (w : Writer) (response : Payload) (status : Nat)
    (err : Option String) : Writer :=
  match response with
  | Payload.raw data => writeOut w data status
  | Payload.json v =>
    if err ≠ none ∨ status ≠ 200 then
      let status2 := if status = 200 then 400 else status
      let msg := match err with | some e => e | none => statusText status2
      let result := mapInsert (mapInsert [] m.codeFieldName (Json.num status2))
        m.msgFieldName (Json.str msg)
      writeOut w (marshalBytes result) status2
    else
      let result := mapInsert (mapInsert [] m.dataFieldName v) m.codeFieldName (Json.num 0)
      writeOut w (marshalBytes result) status

/-! ### `ExtendHandler` (src/gzip.go lines 426-447) -/

/-- Observable events of one `ExtendHandler` run, in order. -/
inductive Event where
  | beginHook (h : Nat)
  | cors
  | handlerCall
  | writeResponse
  | endHook (h : Nat)
deriving DecidableEq

structure HandleResult where
  Data : Payload
  StatusCode : Nat
  Err : Option String
  Cost : Int

structure ExtendOutcome where
  trace : List Event
  writer : Writer
  result : Option HandleResult

/-- The `if handlerMgr.allowCrossOrigin { doAccessOrigin(w, r) }` step:
its only effect on the writer is on the headers. -/
def corsStep (m : Manager) (r : Request) (w : Writer) : Writer :=
  if m.allowCrossOrigin then { w with headers := doAccessOrigin r w.headers } else w

/-- `ExtendHandler`: begin hooks, CORS headers when enabled, the
OPTIONS short-circuit (status 200, nothing else), otherwise the
business handler, `WrapResponse`, and the end hooks with the timing
result.  `t1`/`t2` are the two `time.Now()` readings. -/
def ExtendHandler (m : Manager) (handler : Request → Payload × Nat × Option String)
    (r : Request) (w : Writer) (t1 t2 : Int) : ExtendOutcome :=
  let trace0 := m.beginHooks.map Event.beginHook
  let w1 := corsStep m r w
  let trace1 := if m.allowCrossOrigin then trace0 ++ [Event.cors] else trace0
  if r.method = "OPTIONS" then
    { trace := trace1, writer := writeHeader w1 200, result := none }
  else
    match handler r with
    | (data, status, err) =>
      { trace := trace1 ++ [Event.handlerCall, Event.writeResponse] ++
          m.endHooks.map Event.endHook
        writer := WrapResponse m w1 data status err
        result := some { Data := data, StatusCode := status, Err := err, Cost := t2 - t1 } }

/-! ### Lock discipline of hook registration

Two hook registries exist in the repository: the legacy `package
listen` one guarded by a `sync.RWMutex`, and the current
`handlerManager` one.  Each relevant function body is embedded as its
straight-line sequence of lock and registry actions. -/

inductive HookAction where
  | lockWrite
  | unlockWrite
  | lockRead
  | unlockRead
  | appendHook
  | invokeHooks
deriving DecidableEq

/-- `package listen` `AddBeginHook` (src/gzip.go lines 85-89):
`mutex.Lock(); append; mutex.Unlock()`. -/
def listenAddBeginHookActions : List HookAction :=
  [HookAction.lockWrite, HookAction.appendHook, HookAction.unlockWrite]

/-- `package listen` `AddEndHook` (src/gzip.go lines 91-95). -/
def listenAddEndHookActions : List HookAction :=
  [HookAction.lockWrite, HookAction.appendHook, HookAction.unlockWrite]

/-- `package listen` `doBeginHooks` (src/gzip.go lines 97-103):
`mutex.RLock(); invoke each; mutex.RUnlock()`. -/
def listenDoBeginHooksActions : List HookAction :=
  [HookAction.lockRead, HookAction.invokeHooks, HookAction.unlockRead]

/-- `package listen` `doEndHooks` (src/gzip.go lines 105-111). -/
def listenDoEndHooksActions : List HookAction :=
  [HookAction.lockRead, HookAction.invokeHooks, HookAction.unlockRead]

/-- Current `handlerManager.addBeginHook` (src/gzip.go lines 257-259):
a bare append, no lock anywhere in the function. -/
def managerAddBeginHookActions : List HookAction :=
  [HookAction.appendHook]

/-- Current `handlerManager.addEndHook` (src/gzip.go lines 261-265). -/
def managerAddEndHookActions : List HookAction :=
  [HookAction.appendHook]

/-- Current `handlerManager.doBeginHooks` (src/gzip.go lines 308-313):
iterates the list with no lock. -/
def managerDoBeginHooksActions : List HookAction :=
  [HookAction.invokeHooks]

/-- Every registry mutation in the trace happens while the writer lock
is held. -/
def mutatesOnlyUnderWriteLock (tr : List HookAction) : Bool :=
  (tr.foldl
    (fun (st : Bool × Bool) a =>
      match a with
      | HookAction.lockWrite => (true, st.2)
      | HookAction.unlockWrite => (false, st.2)
      | HookAction.appendHook => (st.1, st.2 && st.1)
      | _ => st)
    (false, true)).2

/-- Every hook invocation in the trace happens while the reader lock is
held. -/
def invokesOnlyUnderReadLock (tr : List HookAction) : Bool :=
  (tr.foldl
    (fun (st : Bool × Bool) a =>
      match a with
      | HookAction.lockRead => (true, st.2)
      | HookAction.unlockRead => (false, st.2)
      | HookAction.invokeHooks => (st.1, st.2 && st.1)
      | _ => st)
    (false, true)).2

/-! ### Concrete instances used in witnesses and counterexamples -/

/-- A fresh response writer, as handed to a handler by `net/http`. -/
def emptyWriter : Writer := { headers := [], status := none, body := [], isGzip := false }

/-- A concrete request with a readable two-byte body. -/
def parseReq : Request := { method := "POST", headers := [], body := ReadResult.ok [104, 105] }

/-- A manager with two begin hooks and one end hook registered. -/
def hookedManager : Manager := { defaultManager with beginHooks := [0, 1], endHooks := [5] }

/-- A concrete CORS preflight request. -/
def optionsReq : Request :=
  { method := "OPTIONS", headers := [("Origin", "http://a.example")], body := ReadResult.ok [] }

/-- A request whose body has a valid gzip header but a corrupt tail:
`gzip.NewReader` accepts it, reading the stream then fails. -/
def gzipFailReq : Request :=
  { method := "POST", headers := [("Content-Encoding", "gzip")], body := ReadResult.ok [31, 139, 5] }

/-- A request carrying a validly compressed body (`toyGzip.compress [7, 8]`). -/
def gzipOkReq : Request :=
  { method := "POST", headers := [("Content-Encoding", "gzip")],
    body := ReadResult.ok [31, 139, 7, 8, 0] }

/-- A request accepting gzip responses, with a plain body. -/
def acceptGzipReq : Request :=
  { method := "GET", headers := [("Accept-Encoding", "gzip, deflate")], body := ReadResult.ok [] }

/-! ### Helper lemmas -/

theorem corsStep_status (m : Manager) (r : Request) (w : Writer) :
    (corsStep m r w).status = w.status := by
  unfold corsStep; split <;> rfl

theorem corsStep_body (m : Manager) (r : Request) (w : Writer) :
    (corsStep m r w).body = w.body := by
  unfold corsStep; split <;> rfl

theorem corsStep_isGzip (m : Manager) (r : Request) (w : Writer) :
    (corsStep m r w).isGzip = w.isGzip := by
  unfold corsStep; split <;> rfl

theorem writeOut_status (w : Writer) (data : List Nat) (status : Nat) (hs : w.status = none) :
    (writeOut w data status).status = some status := by
  obtain ⟨hd, st, bd, g⟩ := w
  simp only [Writer.status] at hs
  subst hs
  cases g <;> simp [writeOut, writeHeader]

theorem writeOut_body (w : Writer) (data : List Nat) (status : Nat) :
    (writeOut w data status).body = w.body ++ data := by
  obtain ⟨hd, st, bd, g⟩ := w
  cases g <;> cases st <;> simp [writeOut, writeHeader]

theorem headerGet_set_same (hs : Headers) (k v : String) :
    headerGet (headerSet hs k v) k = v := by
  induction hs with
  | nil => simp [headerSet, headerGet]
  | cons p rest ih =>
    by_cases h : p.1 = k <;> simp [headerSet, headerGet, h, ih]

theorem headerGet_set_other (hs : Headers) (k1 v k : String) (h : k1 ≠ k) :
    headerGet (headerSet hs k1 v) k = headerGet hs k := by
  induction hs with
  | nil => simp [headerSet, headerGet, h]
  | cons p rest ih =>
    by_cases hp : p.1 = k1 <;> simp [headerSet, headerGet, hp, h, ih]

theorem writeHeader_body (w : Writer) (code : Nat) : (writeHeader w code).body = w.body := by
  unfold writeHeader; split <;> rfl

theorem writeOut_contentType (w : Writer) (data : List Nat) (status : Nat) :
    headerGet (writeOut w data status).headers "Content-Type" = "application/json" := by
  have hcl : ∀ (hs : Headers) (v : String),
      headerGet (headerSet hs "Content-Length" v) "Content-Type" = headerGet hs "Content-Type" :=
    fun hs v => headerGet_set_other hs "Content-Length" v "Content-Type" (by decide)
  obtain ⟨hd, st, bd, g⟩ := w
  cases g <;> cases st <;> simp [writeOut, writeHeader, hcl, headerGet_set_same]

theorem count_map_beginHook (l : List Nat) (x : Nat) :
    (l.map Event.beginHook).count (Event.beginHook x) = l.count x := by
  induction l with
  | nil => rfl
  | cons a t ih => simp [List.count_cons, ih]

theorem count_map_endHook (l : List Nat) (x : Nat) :
    (l.map Event.endHook).count (Event.endHook x) = l.count x := by
  induction l with
  | nil => rfl
  | cons a t ih => simp [List.count_cons, ih]

theorem count_beginHook_in_endMap (l : List Nat) (x : Nat) :
    (l.map Event.endHook).count (Event.beginHook x) = 0 := by
  induction l with
  | nil => rfl
  | cons a t ih => simp [List.count_cons, ih]

theorem count_endHook_in_beginMap (l : List Nat) (x : Nat) :
    (l.map Event.beginHook).count (Event.endHook x) = 0 := by
  induction l with
  | nil => rfl
  | cons a t ih => simp [List.count_cons, ih]

theorem gzipInbound_headers (gm : GzipLib) (r : Request) :
    (gzipInbound gm r).headers = r.headers := by
  unfold gzipInbound
  repeat' split
  all_goals rfl

theorem gzipInbound_method (gm : GzipLib) (r : Request) :
    (gzipInbound gm r).method = r.method := by
  unfold gzipInbound
  repeat' split
  all_goals rfl

theorem gzipHandler_fst (gm : GzipLib) (handler : Request → List (List Nat)) (r : Request)
    (w : Writer) : (GZipHandler gm handler r w).1 = gzipInbound gm r := by
  unfold GZipHandler
  dsimp only
  split <;> rfl

theorem foldl_gzipWriteStep_snd (gm : GzipLib) (cs : List (List Nat)) :
    ∀ st : Writer × List Nat, (cs.foldl (gzipWriteStep gm) st).2 = st.2 ++ cs.flatten := by
  induction cs with
  | nil => intro st; simp
  | cons c t ih =>
    intro st
    rw [List.foldl_cons, ih]
    simp [gzipWriteStep]

theorem foldl_gzipWriteStep_body (gm : GzipLib) (cs : List (List Nat)) :
    ∀ st : Writer × List Nat, (cs.foldl (gzipWriteStep gm) st).1.body = st.1.body := by
  induction cs with
  | nil => intro st; rfl
  | cons c t ih =>
    intro st
    rw [List.foldl_cons, ih]
    unfold gzipWriteStep
    dsimp only
    split <;> rfl

theorem foldl_gzipWriteStep_headerGet (gm : GzipLib) (cs : List (List Nat)) (k : String)
    (hk : k ≠ "Content-Type") :
    ∀ st : Writer × List Nat,
      headerGet (cs.foldl (gzipWriteStep gm) st).1.headers k = headerGet st.1.headers k := by
  induction cs with
  | nil => intro st; rfl
  | cons c t ih =>
    intro st
    rw [List.foldl_cons, ih]
    unfold gzipWriteStep
    dsimp only
    split
    · exact headerGet_set_other _ _ _ _ (Ne.symm hk)
    · rfl

theorem toyGzip_lawful : GzipLib.Lawful toyGzip := by
  intro b
  have hc : toyGzip.compress b = 31 :: 139 :: (b ++ [0]) := rfl
  have hlast : (31 :: 139 :: (b ++ [0])).getLast? = some 0 := by
    have he : (31 :: 139 :: (b ++ [0]) : List Nat) = (31 :: 139 :: b) ++ [0] := by simp
    rw [he, List.getLast?_concat]
  constructor
  · simp [toyGzip, hc]
  · simp only [toyGzip, hc]
    rw [if_pos ⟨rfl, hlast⟩]
    simp

theorem mapInsert_two (a b : String) (v z : Json) (hne : a ≠ b) :
    mapInsert (mapInsert [] a v) b z = [(a, v), (b, z)] := by
  simp [mapInsert, hne]

theorem fieldNamesOK_applyCall (m : Manager) (c : SetterCall) (hm : fieldNamesOK m) :
    fieldNamesOK (applyCall m c).2 := by
  obtain ⟨h1, h2, h3, h4, h5, h6⟩ := hm
  cases c with
  | setData s =>
    simp only [applyCall, setDataFieldName]
    split_ifs with ha hb
    · exact ⟨h1, h2, h3, h4, h5, h6⟩
    · exact ⟨h1, h2, h3, h4, h5, h6⟩
    · push_neg at hb
      exact ⟨ha, h2, h3, hb.1, hb.2, h6⟩
  | setCode s =>
    simp only [applyCall, setCodeFieldName]
    split_ifs with ha hb
    · exact ⟨h1, h2, h3, h4, h5, h6⟩
    · exact ⟨h1, h2, h3, h4, h5, h6⟩
    · push_neg at hb
      exact ⟨h1, ha, h3, fun he => hb.1 he.symm, h5, hb.2⟩
  | setMsg s =>
    simp only [applyCall, setMsgFieldName]
    split_ifs with ha hb
    · exact ⟨h1, h2, h3, h4, h5, h6⟩
    · exact ⟨h1, h2, h3, h4, h5, h6⟩
    · push_neg at hb
      exact ⟨h1, h2, ha, h4, fun he => hb.1 he.symm, fun he => hb.2 he.symm⟩

theorem fieldNamesOK_applyCalls (m : Manager) (cs : List SetterCall) (hm : fieldNamesOK m) :
    fieldNamesOK (applyCalls m cs) := by
  induction cs generalizing m with
  | nil => exact hm
  | cons c rest ih => exact ih _ (fieldNamesOK_applyCall m c hm)

/-! ### Claim theorems -/

/-- C7: starting from the default configuration, every setter call with
an empty name, or a name equal to one of the other two current field
names, fails and leaves the manager unchanged; a valid call changes
exactly the named field; consequently the three field names stay
non-empty and pairwise distinct after any sequence of setter calls, and
`SetDataFieldName "errno"` fails on the default configuration without
changing it. -/
theorem setFieldNames_invariant (cs : List SetterCall) :
    fieldNamesOK (applyCalls defaultManager cs) ∧
    (∀ (mg : Manager) (name : String),
      name.length = 0 ∨ name = mg.codeFieldName ∨ name = mg.msgFieldName →
      (setDataFieldName mg name).1.isSome = true ∧ (setDataFieldName mg name).2 = mg) ∧
    (∀ (mg : Manager) (name : String),
      name.length = 0 ∨ name = mg.dataFieldName ∨ name = mg.msgFieldName →
      (setCodeFieldName mg name).1.isSome = true ∧ (setCodeFieldName mg name).2 = mg) ∧
    (∀ (mg : Manager) (name : String),
      name.length = 0 ∨ name = mg.dataFieldName ∨ name = mg.codeFieldName →
      (setMsgFieldName mg name).1.isSome = true ∧ (setMsgFieldName mg name).2 = mg) ∧
    (∀ (mg : Manager) (name : String),
      ¬(name.length = 0 ∨ name = mg.codeFieldName ∨ name = mg.msgFieldName) →
      (setDataFieldName mg name).1 = none ∧
      (setDataFieldName mg name).2 = { mg with dataFieldName := name }) ∧
    (∀ (mg : Manager) (name : String),
      ¬(name.length = 0 ∨ name = mg.dataFieldName ∨ name = mg.msgFieldName) →
      (setCodeFieldName mg name).1 = none ∧
      (setCodeFieldName mg name).2 = { mg with codeFieldName := name }) ∧
    (∀ (mg : Manager) (name : String),
      ¬(name.length = 0 ∨ name = mg.dataFieldName ∨ name = mg.codeFieldName) →
      (setMsgFieldName mg name).1 = none ∧
      (setMsgFieldName mg name).2 = { mg with msgFieldName := name }) ∧
    (setDataFieldName defaultManager "errno").1.isSome = true ∧
    (setDataFieldName defaultManager "errno").2 = defaultManager := by
  refine ⟨fieldNamesOK_applyCalls _ cs (by decide), ?_, ?_, ?_, ?_, ?_, ?_, by decide, by decide⟩
  · intro mg name h
    by_cases hl : name.length = 0
    · simp [setDataFieldName, hl]
    · rcases h with h | h | h
      · exact absurd h hl
      · subst h; simp only [setDataFieldName]; split_ifs <;> simp_all
      · subst h; simp only [setDataFieldName]; split_ifs <;> simp_all
  · intro mg name h
    by_cases hl : name.length = 0
    · simp [setCodeFieldName, hl]
    · rcases h with h | h | h
      · exact absurd h hl
      · subst h; simp only [setCodeFieldName]; split_ifs <;> simp_all
      · subst h; simp only [setCodeFieldName]; split_ifs <;> simp_all
  · intro mg name h
    by_cases hl : name.length = 0
    · simp [setMsgFieldName, hl]
    · rcases h with h | h | h
      · exact absurd h hl
      · subst h; simp only [setMsgFieldName]; split_ifs <;> simp_all
      · subst h; simp only [setMsgFieldName]; split_ifs <;> simp_all
  · intro mg name h
    push_neg at h
    simp [setDataFieldName, h.1, h.2.1, h.2.2]
  · intro mg name h
    push_neg at h
    simp [setCodeFieldName, h.1, h.2.1, h.2.2]
  · intro mg name h
    push_neg at h
    simp [setMsgFieldName, h.1, h.2.1, h.2.2]

/-- C7 witness: the invariant holds after a concrete setter sequence,
`SetDataFieldName "errno"` fails on the default configuration leaving
it unchanged, and an empty name is rejected. -/
theorem setFieldNames_invariant_witness :
    fieldNamesOK (applyCalls defaultManager [SetterCall.setCode "status"]) ∧
    (setDataFieldName defaultManager "errno").1.isSome = true ∧
    (setDataFieldName defaultManager "errno").2 = defaultManager ∧
    (setDataFieldName defaultManager "").2 = defaultManager := by
  have h := setFieldNames_invariant [SetterCall.setCode "status"]
  exact ⟨h.1, h.2.2.2.2.2.2.2.1, h.2.2.2.2.2.2.2.2,
    (h.2.1 defaultManager "" (Or.inl (by decide))).2⟩

/-- C9 counterexample: the current `handlerManager.addBeginHook` and
`addEndHook` (reached from the public `AddBeginHook`/`AddEndHook` of
package listenerutil) mutate the hook lists without holding any lock,
refuting the claim that registration mutates only under a writer
lock. -/
theorem managerHookRegistration_unlocked :
    mutatesOnlyUnderWriteLock managerAddBeginHookActions = false ∧
    mutatesOnlyUnderWriteLock managerAddEndHookActions = false := by
  decide

/-- C9 (amended): only the legacy `package listen` hook registry uses
the reader/writer lock — registration appends under the writer lock and
invocation runs under the reader lock; the current `handlerManager`
registration and invocation perform no locking at all. -/
theorem hookLockDiscipline :
    mutatesOnlyUnderWriteLock listenAddBeginHookActions = true ∧
    mutatesOnlyUnderWriteLock listenAddEndHookActions = true ∧
    invokesOnlyUnderReadLock listenDoBeginHooksActions = true ∧
    invokesOnlyUnderReadLock listenDoEndHooksActions = true ∧
    mutatesOnlyUnderWriteLock managerAddBeginHookActions = false ∧
    mutatesOnlyUnderWriteLock managerAddEndHookActions = false ∧
    invokesOnlyUnderReadLock managerDoBeginHooksActions = false := by
  decide

/-- C5: when the body read succeeds, `ParseBodyParam` leaves the
request with a fresh body stream holding exactly the bytes read — also
when JSON decoding fails — and returns the decode error exactly when
the bytes do not decode (`none` otherwise); when the body read fails,
it returns the read error. -/
theorem parseBodyParam_spec (unmarshal : List Nat → Option String) (r : Request) :
    (∀ bs, r.body = ReadResult.ok bs →
      (ParseBodyParam unmarshal r).2 = { r with body := ReadResult.ok bs } ∧
      (ParseBodyParam unmarshal r).1 = unmarshal bs) ∧
    (∀ e, r.body = ReadResult.readErr e → (ParseBodyParam unmarshal r).1 = some e) := by
  constructor
  · intro bs hb
    cases hu : unmarshal bs <;> simp [ParseBodyParam, hb, ioReadAll, hu]
  · intro e hb
    simp [ParseBodyParam, hb, ioReadAll]

/-- C5 witness: on a concrete request whose bytes fail to decode, the
decode error is returned and a second read of the restored body sees
the same bytes. -/
theorem parseBodyParam_spec_witness :
    (ParseBodyParam (fun _ => some "invalid character") parseReq).2.body =
      ReadResult.ok [104, 105] ∧
    (ParseBodyParam (fun _ => some "invalid character") parseReq).1 =
      some "invalid character" := by
  have h := (parseBodyParam_spec (fun _ => some "invalid character") parseReq).1 [104, 105] rfl
  exact ⟨by rw [h.1], h.2⟩

/-- C1: for a non-OPTIONS request whose handler returns a non-byte
payload with status 200 and no error, `WrapResponse` (via
`ExtendHandler`) writes status 200 and a body equal to the JSON
serialization of the map with the data field mapped to the payload and
the code field mapped to 0. -/
theorem extendHandler_success (m : Manager) (handler : Request → Payload × Nat × Option String)
    (r : Request) (w : Writer) (t1 t2 : Int) (v : Json)
    (hm : ¬ r.method = "OPTIONS")
    (hh : handler r = (Payload.json v, 200, none))
    (hs : w.status = none)
    (hb : w.body = [])
    (hne : m.dataFieldName ≠ m.codeFieldName) :
    (ExtendHandler m handler r w t1 t2).writer.status = some 200 ∧
    (ExtendHandler m handler r w t1 t2).writer.body =
      marshalBytes [(m.dataFieldName, v), (m.codeFieldName, Json.num 0)] := by
  have h1 : (corsStep m r w).status = none := by rw [corsStep_status, hs]
  have h2 : (corsStep m r w).body = [] := by rw [corsStep_body, hb]
  unfold ExtendHandler
  simp only [if_neg hm, hh]
  refine ⟨?_, ?_⟩
  · simp [WrapResponse, writeOut_status _ _ _ h1]
  · simp [WrapResponse, writeOut_body, h2, mapInsert_two _ _ _ _ hne]

/-- C1 witness: the default manager with a handler returning
`(map[x:1], 200, nil)` produces status 200 and exactly the body
bytes of the string with data mapped to the payload and errno 0. -/
theorem extendHandler_success_witness :
    (ExtendHandler defaultManager (fun _ => (Payload.json (Json.obj [("x", Json.num 1)]), 200, none))
      parseReq emptyWriter 0 3).writer.status = some 200 ∧
    (ExtendHandler defaultManager (fun _ => (Payload.json (Json.obj [("x", Json.num 1)]), 200, none))
      parseReq emptyWriter 0 3).writer.body =
      strBytes "\x7b\"data\":\x7b\"x\":1\x7d,\"errno\":0\x7d" := by
  have h := extendHandler_success defaultManager
    (fun _ => (Payload.json (Json.obj [("x", Json.num 1)]), 200, none))
    parseReq emptyWriter 0 3 (Json.obj [("x", Json.num 1)])
    (by decide) rfl rfl rfl (by decide)
  refine ⟨h.1, h.2.trans ?_⟩
  simp [marshalBytes, sortFields, insertField, serJson, serFields, serStr, serStrChar, strBytes]
  decide

/-- C2: for a non-OPTIONS request whose handler returns a non-byte
payload with a non-null error or a status other than 200,
`WrapResponse` normalizes a 200 status to 400, synthesizes the message
from `http.StatusText` when the error is null, writes the normalized
status, and writes a body equal to the JSON serialization of the map
with the code field mapped to the status and the message field mapped
to the error message. -/
theorem extendHandler_error (m : Manager) (handler : Request → Payload × Nat × Option String)
    (r : Request) (w : Writer) (t1 t2 : Int) (v : Json) (status : Nat) (err : Option String)
    (hm : ¬ r.method = "OPTIONS")
    (hh : handler r = (Payload.json v, status, err))
    (herr : err ≠ none ∨ status ≠ 200)
    (hs : w.status = none)
    (hb : w.body = [])
    (hne : m.codeFieldName ≠ m.msgFieldName) :
    (ExtendHandler m handler r w t1 t2).writer.status =
      some (if status = 200 then 400 else status) ∧
    (ExtendHandler m handler r w t1 t2).writer.body =
      marshalBytes [(m.codeFieldName, Json.num (if status = 200 then 400 else status)),
        (m.msgFieldName,
          Json.str (err.getD (statusText (if status = 200 then 400 else status))))] := by
  have h1 : (corsStep m r w).status = none := by rw [corsStep_status, hs]
  have h2 : (corsStep m r w).body = [] := by rw [corsStep_body, hb]
  unfold ExtendHandler
  simp only [if_neg hm, hh]
  simp only [WrapResponse]
  rw [if_pos herr]
  cases err with
  | none =>
    refine ⟨?_, ?_⟩
    · simp [writeOut_status _ _ _ h1]
    · simp [writeOut_body, h2, mapInsert_two _ _ _ _ hne]
  | some e =>
    refine ⟨?_, ?_⟩
    · simp [writeOut_status _ _ _ h1]
    · simp [writeOut_body, h2, mapInsert_two _ _ _ _ hne]

/-- C2 witness: `(nil, 200, error "bad")` yields status 400 and the
serialized map with errno 400 and errmsg "bad"; `(nil, 404, nil)`
yields status 404 and errmsg "Not Found". -/
theorem extendHandler_error_witness :
    (ExtendHandler defaultManager (fun _ => (Payload.json Json.null, 200, some "bad"))
      parseReq emptyWriter 0 3).writer.status = some 400 ∧
    (ExtendHandler defaultManager (fun _ => (Payload.json Json.null, 200, some "bad"))
      parseReq emptyWriter 0 3).writer.body =
      strBytes "\x7b\"errmsg\":\"bad\",\"errno\":400\x7d" ∧
    (ExtendHandler defaultManager (fun _ => (Payload.json Json.null, 404, none))
      parseReq emptyWriter 0 3).writer.status = some 404 ∧
    (ExtendHandler defaultManager (fun _ => (Payload.json Json.null, 404, none))
      parseReq emptyWriter 0 3).writer.body =
      strBytes "\x7b\"errmsg\":\"Not Found\",\"errno\":404\x7d" := by
  have ha := extendHandler_error defaultManager (fun _ => (Payload.json Json.null, 200, some "bad"))
    parseReq emptyWriter 0 3 Json.null 200 (some "bad")
    (by decide) rfl (Or.inl (by simp)) rfl rfl (by decide)
  have hc := extendHandler_error defaultManager (fun _ => (Payload.json Json.null, 404, none))
    parseReq emptyWriter 0 3 Json.null 404 none
    (by decide) rfl (Or.inr (by decide)) rfl rfl (by decide)
  refine ⟨ha.1, ha.2.trans ?_, hc.1, hc.2.trans ?_⟩ <;>
    simp [marshalBytes, sortFields, insertField, serJson, serFields, serStr, serStrChar,
      strBytes, statusText] <;> decide

/-- C10: when the handler payload is a raw byte sequence,
`WrapResponse` writes those bytes verbatim with the handler status
unchanged — for any error value and any status, with no 200-to-400
normalization — while still setting `Content-Type: application/json`. -/
theorem extendHandler_rawBytes (m : Manager) (handler : Request → Payload × Nat × Option String)
    (r : Request) (w : Writer) (t1 t2 : Int) (bs : List Nat) (status : Nat) (err : Option String)
    (hm : ¬ r.method = "OPTIONS")
    (hh : handler r = (Payload.raw bs, status, err))
    (hs : w.status = none) :
    (ExtendHandler m handler r w t1 t2).writer.status = some status ∧
    (ExtendHandler m handler r w t1 t2).writer.body = w.body ++ bs ∧
    headerGet (ExtendHandler m handler r w t1 t2).writer.headers "Content-Type" =
      "application/json" := by
  have h1 : (corsStep m r w).status = none := by rw [corsStep_status, hs]
  unfold ExtendHandler
  simp only [if_neg hm, hh]
  unfold WrapResponse
  exact ⟨writeOut_status _ _ _ h1, by rw [writeOut_body, corsStep_body],
    writeOut_contentType _ _ _⟩

/-- C10 witness: raw bytes with status 200 and a non-null error pass
through unchanged — status stays 200, no normalization to 400, body is
the bytes, and the content type is application/json. -/
theorem extendHandler_rawBytes_witness :
    (ExtendHandler defaultManager (fun _ => (Payload.raw [1, 2, 3], 200, some "boom"))
      parseReq emptyWriter 0 3).writer.status = some 200 ∧
    (ExtendHandler defaultManager (fun _ => (Payload.raw [1, 2, 3], 200, some "boom"))
      parseReq emptyWriter 0 3).writer.body = [1, 2, 3] ∧
    headerGet (ExtendHandler defaultManager (fun _ => (Payload.raw [1, 2, 3], 200, some "boom"))
      parseReq emptyWriter 0 3).writer.headers "Content-Type" = "application/json" := by
  have h := extendHandler_rawBytes defaultManager
    (fun _ => (Payload.raw [1, 2, 3], 200, some "boom")) parseReq emptyWriter 0 3
    [1, 2, 3] 200 (some "boom") (by decide) rfl rfl
  exact ⟨h.1, h.2.1, h.2.2⟩

/-- C6: on an OPTIONS request, `ExtendHandler` writes status 200 with
an empty body, does not invoke the business handler (the outcome is the
same for every handler), runs no end hooks, and the trace consists of
exactly the begin hooks in order followed by the CORS step when
enabled. -/
theorem extendHandler_options (m : Manager) (handler : Request → Payload × Nat × Option String)
    (r : Request) (w : Writer) (t1 t2 : Int)
    (hm : r.method = "OPTIONS")
    (hs : w.status = none) :
    (ExtendHandler m handler r w t1 t2).writer.status = some 200 ∧
    (ExtendHandler m handler r w t1 t2).writer.body = w.body ∧
    (ExtendHandler m handler r w t1 t2).result = none ∧
    (ExtendHandler m handler r w t1 t2).trace =
      m.beginHooks.map Event.beginHook ++ (if m.allowCrossOrigin then [Event.cors] else []) ∧
    (∀ g, ExtendHandler m g r w t1 t2 = ExtendHandler m handler r w t1 t2) ∧
    Event.handlerCall ∉ (ExtendHandler m handler r w t1 t2).trace ∧
    (∀ h, Event.endHook h ∉ (ExtendHandler m handler r w t1 t2).trace) := by
  have h1 : (corsStep m r w).status = none := by rw [corsStep_status, hs]
  have htr : (ExtendHandler m handler r w t1 t2).trace =
      m.beginHooks.map Event.beginHook ++ (if m.allowCrossOrigin then [Event.cors] else []) := by
    unfold ExtendHandler
    simp only [if_pos hm]
    by_cases hc : m.allowCrossOrigin <;> simp [hc]
  refine ⟨?_, ?_, ?_, htr, ?_, ?_, ?_⟩
  · unfold ExtendHandler
    simp only [if_pos hm]
    unfold writeHeader
    simp [h1]
  · unfold ExtendHandler
    simp only [if_pos hm]
    rw [writeHeader_body, corsStep_body]
  · unfold ExtendHandler
    simp only [if_pos hm]
  · intro g
    unfold ExtendHandler
    simp only [if_pos hm]
  · rw [htr]
    by_cases hc : m.allowCrossOrigin <;> simp [hc]
  · intro h
    rw [htr]
    by_cases hc : m.allowCrossOrigin <;> simp [hc]

/-- C6 witness: a concrete OPTIONS request against a manager with
registered hooks gets status 200, an empty body, no handler result, and
a trace of the two begin hooks followed by the CORS step. -/
theorem extendHandler_options_witness :
    (ExtendHandler hookedManager (fun _ => (Payload.json Json.null, 200, none))
      optionsReq emptyWriter 0 3).writer.status = some 200 ∧
    (ExtendHandler hookedManager (fun _ => (Payload.json Json.null, 200, none))
      optionsReq emptyWriter 0 3).writer.body = [] ∧
    (ExtendHandler hookedManager (fun _ => (Payload.json Json.null, 200, none))
      optionsReq emptyWriter 0 3).result = none ∧
    (ExtendHandler hookedManager (fun _ => (Payload.json Json.null, 200, none))
      optionsReq emptyWriter 0 3).trace =
      [Event.beginHook 0, Event.beginHook 1, Event.cors] := by
  have h := extendHandler_options hookedManager (fun _ => (Payload.json Json.null, 200, none))
    optionsReq emptyWriter 0 3 rfl rfl
  exact ⟨h.1, h.2.1, h.2.2.1, h.2.2.2.1.trans (by decide)⟩

/-- C8: on a non-OPTIONS request the trace is exactly the begin hooks
in registration order, then the CORS step when enabled, then the
handler call and the response write, then the end hooks in registration
order; every registered hook fires exactly as many times as it was
registered, and the `HandleResult.Cost` handed to the end hooks is
non-negative whenever the clock is monotone. -/
theorem extendHandler_hooks (m : Manager) (handler : Request → Payload × Nat × Option String)
    (r : Request) (w : Writer) (t1 t2 : Int)
    (hm : ¬ r.method = "OPTIONS")
    (ht : t1 ≤ t2) :
    (ExtendHandler m handler r w t1 t2).trace =
      m.beginHooks.map Event.beginHook ++ (if m.allowCrossOrigin then [Event.cors] else []) ++
      [Event.handlerCall, Event.writeResponse] ++ m.endHooks.map Event.endHook ∧
    (∀ h, (ExtendHandler m handler r w t1 t2).trace.count (Event.beginHook h) =
      m.beginHooks.count h) ∧
    (∀ h, (ExtendHandler m handler r w t1 t2).trace.count (Event.endHook h) =
      m.endHooks.count h) ∧
    (∃ res, (ExtendHandler m handler r w t1 t2).result = some res ∧ 0 ≤ res.Cost) := by
  rcases hp : handler r with ⟨data, status, err⟩
  have htr : (ExtendHandler m handler r w t1 t2).trace =
      m.beginHooks.map Event.beginHook ++ (if m.allowCrossOrigin then [Event.cors] else []) ++
      [Event.handlerCall, Event.writeResponse] ++ m.endHooks.map Event.endHook := by
    unfold ExtendHandler
    simp only [if_neg hm, hp]
    by_cases hc : m.allowCrossOrigin <;> simp [hc]
  refine ⟨htr, ?_, ?_, ?_⟩
  · intro h
    rw [htr]
    simp [List.count_append, count_map_beginHook, count_beginHook_in_endMap]
    by_cases hc : m.allowCrossOrigin <;> simp [hc, List.count_cons, count_beginHook_in_endMap]
  · intro h
    rw [htr]
    simp [List.count_append, count_map_endHook, count_endHook_in_beginMap]
    by_cases hc : m.allowCrossOrigin <;> simp [hc, List.count_cons, count_endHook_in_beginMap]
  · refine ⟨{ Data := data, StatusCode := status, Err := err, Cost := t2 - t1 }, ?_, ?_⟩
    · unfold ExtendHandler
      simp only [if_neg hm, hp]
    · exact sub_nonneg.mpr ht

/-- C8 witness: on a concrete POST request with two begin hooks and one
end hook the trace is begin hooks, CORS, handler call, write, end hook,
each hook counted once, and the result cost is non-negative. -/
theorem extendHandler_hooks_witness :
    (ExtendHandler hookedManager (fun _ => (Payload.raw [7], 200, none))
      parseReq emptyWriter 0 3).trace =
      [Event.beginHook 0, Event.beginHook 1, Event.cors, Event.handlerCall,
        Event.writeResponse, Event.endHook 5] ∧
    (ExtendHandler hookedManager (fun _ => (Payload.raw [7], 200, none))
      parseReq emptyWriter 0 3).trace.count (Event.beginHook 0) = 1 ∧
    (ExtendHandler hookedManager (fun _ => (Payload.raw [7], 200, none))
      parseReq emptyWriter 0 3).trace.count (Event.endHook 5) = 1 ∧
    (∃ res, (ExtendHandler hookedManager (fun _ => (Payload.raw [7], 200, none))
      parseReq emptyWriter 0 3).result = some res ∧ 0 ≤ res.Cost) := by
  have h := extendHandler_hooks hookedManager (fun _ => (Payload.raw [7], 200, none))
    parseReq emptyWriter 0 3 (by decide) (by decide)
  exact ⟨h.1.trans (by decide), (h.2.1 0).trans (by decide), (h.2.2.1 5).trans (by decide),
    h.2.2.2⟩

/-- C3 counterexample: a body with a valid gzip header and a corrupt
tail makes reader construction succeed and stream reading fail; the
downstream handler then observes an empty (drained) body, not the
original compressed bytes — refuting the claim that every decompression
failure falls back to the original bytes. -/
theorem gzipInbound_failedRead_counterexample :
    toyGzip.newReaderOk [31, 139, 5] = true ∧
    toyGzip.readAll [31, 139, 5] = none ∧
    (GZipHandler toyGzip (fun _ => []) gzipFailReq emptyWriter).1.body = ReadResult.ok [] ∧
    (GZipHandler toyGzip (fun _ => []) gzipFailReq emptyWriter).1.body ≠
      ReadResult.ok [31, 139, 5] := by
  decide

/-- C3 (amended): for a gzip-encoded request with a fully readable body
the handler observes the decompressed bytes when decompression
succeeds, the original bytes when the gzip reader construction (header
check) fails, and an empty drained body when the reader is constructed
but reading the decompressed stream fails; no failure is surfaced to
the handler as an error. -/
theorem gzipInbound_spec (gm : GzipLib) (handler : Request → List (List Nat)) (r : Request)
    (w : Writer) (data : List Nat)
    (henc : strContains (headerGet r.headers "Content-Encoding") "gzip" = true)
    (hb : r.body = ReadResult.ok data) :
    (gm.newReaderOk data = false →
      (GZipHandler gm handler r w).1.body = ReadResult.ok data) ∧
    (∀ d, gm.newReaderOk data = true → gm.readAll data = some d →
      (GZipHandler gm handler r w).1.body = ReadResult.ok d) ∧
    (gm.newReaderOk data = true → gm.readAll data = none →
      (GZipHandler gm handler r w).1.body = ReadResult.ok []) := by
  rw [gzipHandler_fst]
  refine ⟨?_, ?_, ?_⟩
  · intro hnr
    simp [gzipInbound, henc, hb, ioReadAll, hnr]
  · intro d hnr hra
    simp [gzipInbound, henc, hb, ioReadAll, hnr, hra]
  · intro hnr hra
    simp [gzipInbound, henc, hb, ioReadAll, hnr, hra]

/-- C3 witness: a validly compressed body is replaced by its
decompression for the downstream handler. -/
theorem gzipInbound_spec_witness :
    (GZipHandler toyGzip (fun _ => []) gzipOkReq emptyWriter).1.body = ReadResult.ok [7, 8] := by
  have h := (gzipInbound_spec toyGzip (fun _ => []) gzipOkReq emptyWriter [31, 139, 7, 8, 0]
    (by decide) rfl).2.1 [7, 8] (by decide) (by decide)
  exact h

/-- C4: when `Accept-Encoding` contains "gzip", the wrapped handler
produces `Content-Encoding: gzip` and a body whose decompression is
exactly the concatenation of the inner handler's writes (the gzip
stream is completed on exit); when it does not, the inner handler runs
against the unmodified writer. -/
theorem gzipHandler_negotiation (gm : GzipLib) (handler : Request → List (List Nat))
    (r : Request) (w : Writer)
    (hlaw : GzipLib.Lawful gm) :
    (strContains (headerGet r.headers "Accept-Encoding") "gzip" = true → w.body = [] →
      headerGet (GZipHandler gm handler r w).2.headers "Content-Encoding" = "gzip" ∧
      gm.readAll (GZipHandler gm handler r w).2.body =
        some (handler (gzipInbound gm r)).flatten) ∧
    (strContains (headerGet r.headers "Accept-Encoding") "gzip" = false →
      GZipHandler gm handler r w =
        (gzipInbound gm r, runPlainWrites w (handler (gzipInbound gm r)))) := by
  have hhd := gzipInbound_headers gm r
  constructor
  · intro hacc hwb
    unfold GZipHandler
    dsimp only
    rw [hhd, hacc]
    simp only [if_neg (by decide : ¬ (true = false))]
    constructor
    · rw [runGzipWrites, foldl_gzipWriteStep_headerGet gm _ _ (by decide)]
      exact headerGet_set_same _ _ _
    · rw [runGzipWrites, foldl_gzipWriteStep_body, foldl_gzipWriteStep_snd]
      dsimp only
      rw [hwb]
      simp [(hlaw _).2]
  · intro hacc
    unfold GZipHandler
    dsimp only
    rw [hhd, hacc]
    simp

/-- C4 witness: with the lawful concrete codec, a handler writing two
chunks yields a gzip-encoded response that decompresses to their
concatenation; without gzip in `Accept-Encoding` the writer receives
the plain writes. -/
theorem gzipHandler_negotiation_witness :
    headerGet (GZipHandler toyGzip (fun _ => [[10], [20, 30]]) acceptGzipReq
      emptyWriter).2.headers "Content-Encoding" = "gzip" ∧
    toyGzip.readAll (GZipHandler toyGzip (fun _ => [[10], [20, 30]]) acceptGzipReq
      emptyWriter).2.body = some [10, 20, 30] ∧
    GZipHandler toyGzip (fun _ => [[10], [20, 30]]) parseReq emptyWriter =
      (gzipInbound toyGzip parseReq,
        runPlainWrites emptyWriter [[10], [20, 30]]) := by
  have h := gzipHandler_negotiation toyGzip (fun _ => [[10], [20, 30]]) acceptGzipReq
    emptyWriter toyGzip_lawful
  have h2 := gzipHandler_negotiation toyGzip (fun _ => [[10], [20, 30]]) parseReq
    emptyWriter toyGzip_lawful
  have ha := h.1 (by decide) rfl
  exact ⟨ha.1, ha.2.trans (by decide), h2.2 (by decide)⟩

end ListenerUtil
